import Mathlib

/-!
Shallow embedding of the device transport and firmware-delivery core of the
Simpiler repository (BoardCommunicationService and CompilationService in
src/mobile/src/services/CompilationService.js), together with theorems that
settle the specification claims against it.

Conventions used throughout:
- JS promises and awaits are flattened into sequential pure computations;
  a rejected promise / thrown error is an explicit error value.
- Native driver modules (UsbSerial, BleManager, EspOta) are modelled as
  environment records holding the results their calls would produce; the
  gate booleans model the platform conditionals that decide whether a module
  object is non-null.
- Driver side effects are recorded as explicit event-trace lists so that
  ordering claims can be stated.
-/

namespace Simpiler

/-- A JS identifier value as used for device ids in the source: USB deviceId
is a number, BLE id and ESP ip are strings. -/
inductive JsId where
  | num (n : Nat)
  | str (s : String)
deriving DecidableEq, Repr

/-- The board.type field of a descriptor built by getAvailableBoards. -/
inductive BType where
  | usb
  | ble
  | wifi
deriving DecidableEq, Repr

/-- Board descriptor object assembled by getAvailableBoards (field btype
models the JS field named type). -/
structure Board where
  id : JsId
  name : String
  btype : BType
deriving DecidableEq, Repr

/-- JS logical-or defaulting applied to an optional string, as in
device.productName or a fallback label: a missing or empty string is falsy. -/
def jsOrStr (o : Option String) (dflt : String) : String :=
  match o with
  | none => dflt
  | some s => if s = "" then dflt else s

/-- Whether sub occurs at the start of s, on character lists. -/
def charsStartWith : List Char → List Char → Bool
  | [], _ => true
  | _ :: _, [] => false
  | a :: as, b :: bs => a == b && charsStartWith as bs

/-- JS String.includes(sub) on character lists: sub occurs contiguously in s. -/
def charsInclude (s sub : List Char) : Bool :=
  match s with
  | [] => charsStartWith sub []
  | c :: t => charsStartWith sub (c :: t) || charsInclude t sub

/-- JS String.includes on strings, used by the BLE name filter. -/
def jsIncludes (s sub : String) : Bool :=
  charsInclude s.data sub.data

/-- A USB device as reported by UsbSerial.getDeviceList. -/
structure UsbDev where
  deviceId : Nat
  productName : Option String
  vendorId : Nat
  productId : Nat
deriving DecidableEq, Repr

/-- A BLE peripheral as reported by BleManager.scanForPeripherals. -/
structure BleDev where
  id : String
  name : Option String
deriving DecidableEq, Repr

/-- An ESP OTA device record persisted under the esp_devices key. -/
structure EspDev where
  ip : String
  name : Option String
  port : Option Nat
deriving DecidableEq, Repr

/-- Environment for one getAvailableBoards call: the gate booleans model the
platform/module-availability conditionals, the driver fields model the result
of each enumeration call (an Except error is a rejected promise), and esp
models the parsed esp_devices storage. -/
structure ScanEnv where
  usbGate : Bool
  bleGate : Bool
  espGate : Bool
  usb : Except String (List UsbDev)
  ble : Except String (List BleDev)
  esp : List EspDev

/-- Board descriptor built from a USB device in getAvailableBoards. -/
def usbBoard (d : UsbDev) : Board :=
  { id := JsId.num d.deviceId
    name := jsOrStr d.productName
      ("USB Device (" ++ toString d.vendorId ++ ":" ++ toString d.productId ++ ")")
    btype := BType.usb }

/-- The BLE name allow-list filter in getAvailableBoards: a device passes only
when it has a truthy name containing one of the expected substrings. -/
def bleNameAllowed (d : BleDev) : Bool :=
  match d.name with
  | none => false
  | some n =>
      jsIncludes n "Arduino" || jsIncludes n "ESP32" ||
        jsIncludes n "ESP8266" || jsIncludes n "BLE"

/-- Board descriptor built from a BLE device in getAvailableBoards. -/
def bleBoard (d : BleDev) : Board :=
  { id := JsId.str d.id
    name := jsOrStr d.name ("BLE Device (" ++ d.id ++ ")")
    btype := BType.ble }

/-- Board descriptor built from a stored ESP device in getAvailableBoards. -/
def espBoard (d : EspDev) : Board :=
  { id := JsId.str d.ip
    name := jsOrStr d.name ("ESP Device (" ++ d.ip ++ ")")
    btype := BType.wifi }

/-- getAvailableBoards: sequentially enumerates USB, BLE and stored ESP
devices inside a single try block; any driver error propagates (the catch
logs and rethrows), aborting the scan. -/
def getAvailableBoards (env : ScanEnv) : Except String (List Board) := do
  let usbBoards ←
    if env.usbGate then do
      let ds ← env.usb
      pure (ds.map usbBoard)
    else pure []
  let bleBoards ←
    if env.bleGate then do
      let ds ← env.ble
      pure ((ds.filter bleNameAllowed).map bleBoard)
    else pure []
  let espBoards := if env.espGate then env.esp.map espBoard else []
  pure (usbBoards ++ bleBoards ++ espBoards)

/-- Whether an Except result is a success, used to state that a scan raised. -/
def scanSucceeds (r : Except String (List Board)) : Bool :=
  match r with
  | Except.ok _ => true
  | Except.error _ => false

/-- The JS object spread mergedDevice = spread of existing then device in
addEspDevice: every field present on the new record overwrites the old one
(an absent optional field keeps the old value). -/
def mergeEspDevice (old d : EspDev) : EspDev :=
  { ip := d.ip
    name := match d.name with | some v => some v | none => old.name
    port := match d.port with | some v => some v | none => old.port }

/-- addEspDevice: findIndex on ip, merge in place at the first match,
otherwise push at the end, written as the equivalent structural recursion. -/
def addEspDevice : List EspDev → EspDev → List EspDev
  | [], d => [d]
  | e :: t, d =>
      if e.ip == d.ip then mergeEspDevice e d :: t else e :: addEspDevice t d

/-- removeEspDevice: keeps exactly the stored records whose ip differs. -/
def removeEspDevice (devs : List EspDev) (ip : String) : List EspDev :=
  devs.filter (fun d => d.ip != ip)

/-- The serial-monitor fan-out loop: serialMonitorCallbacks.forEach applied
to one inbound chunk. Handlers are called in subscription order; a handler
that throws aborts the forEach, so the result is the number of handlers that
were invoked together with the propagated error, if any. The handlers that
received the chunk are exactly the first count handlers, in list order. -/
def fanOutCount {α ε : Type} : List (α → Except ε Unit) → α → Nat × Option ε
  | [], _ => (0, none)
  | h :: t, d =>
      match h d with
      | Except.ok _ =>
          let r := fanOutCount t d
          (r.1 + 1, r.2)
      | Except.error e => (1, some e)

/-- Driver calls issued by connectToBoard / disconnectFromBoard, in order. -/
inductive DrvEv where
  | usbConnect (id : JsId)
  | usbOpen (id : JsId)
  | usbSetListener
  | usbClose (id : JsId)
  | usbDisc (id : JsId)
  | bleConnect (id : JsId)
  | bleStartNotify (id : JsId)
  | bleAddListener (id : JsId)
  | bleDisc (id : JsId)
deriving DecidableEq, Repr

/-- Environment for the connection manager: which native modules are present
(gates) and whether each driver currently completes its calls successfully. -/
structure ConnEnv where
  usbGate : Bool
  bleGate : Bool
  espGate : Bool
  usbOk : Bool
  bleOk : Bool
deriving Repr

/-- The mutable fields of BoardCommunicationService that hold the single
active connection. -/
structure ConnState where
  connectedDevice : Option Board
  connectionType : Option BType
deriving DecidableEq, Repr

/-- disconnectFromBoard: a no-op when nothing is connected; otherwise issues
the driver teardown calls for the current connection type and clears the
connection fields; a driver error propagates before the fields are cleared. -/
def disconnectFromBoard (env : ConnEnv) (s : ConnState) :
    ConnState × List DrvEv × Option String :=
  match s.connectedDevice with
  | none => (s, [], none)
  | some d =>
      match s.connectionType with
      | some BType.usb =>
          if env.usbGate then
            if env.usbOk then
              (⟨none, none⟩, [DrvEv.usbClose d.id, DrvEv.usbDisc d.id], none)
            else (s, [DrvEv.usbClose d.id], some "usb driver error")
          else (⟨none, none⟩, [], none)
      | some BType.ble =>
          if env.bleGate then
            if env.bleOk then (⟨none, none⟩, [DrvEv.bleDisc d.id], none)
            else (s, [DrvEv.bleDisc d.id], some "ble driver error")
          else (⟨none, none⟩, [], none)
      | _ => (⟨none, none⟩, [], none)

/-- connectToBoard: tears down any existing connection first, then dispatches
on board.type; the surrounding catch clears the connection fields and
rethrows on any error; an unsupported type (or absent module) throws. The
returned trace lists every driver call issued, in order. -/
def connectToBoard (env : ConnEnv) (s : ConnState) (b : Board) :
    ConnState × List DrvEv × Option String :=
  let pre :=
    match s.connectedDevice with
    | some _ => disconnectFromBoard env s
    | none => (s, [], none)
  match pre.2.2 with
  | some e => (⟨none, none⟩, pre.2.1, some e)
  | none =>
      match b.btype with
      | BType.usb =>
          if env.usbGate then
            if env.usbOk then
              (⟨some b, some BType.usb⟩,
                pre.2.1 ++ [DrvEv.usbConnect b.id, DrvEv.usbOpen b.id,
                  DrvEv.usbSetListener], none)
            else
              (⟨none, none⟩, pre.2.1 ++ [DrvEv.usbConnect b.id],
                some "usb driver error")
          else (⟨none, none⟩, pre.2.1, some "Unsupported board type")
      | BType.ble =>
          if env.bleGate then
            if env.bleOk then
              (⟨some b, some BType.ble⟩,
                pre.2.1 ++ [DrvEv.bleConnect b.id, DrvEv.bleStartNotify b.id,
                  DrvEv.bleAddListener b.id], none)
            else
              (⟨none, none⟩, pre.2.1 ++ [DrvEv.bleConnect b.id],
                some "ble driver error")
          else (⟨none, none⟩, pre.2.1, some "Unsupported board type")
      | BType.wifi =>
          if env.espGate then (⟨some b, some BType.wifi⟩, pre.2.1, none)
          else (⟨none, none⟩, pre.2.1, some "Unsupported board type")

/-- Whether the module needed for a board type is present in the environment
(the conjunct next to board.type in each connectToBoard branch). -/
def boardSupported (env : ConnEnv) (t : BType) : Bool :=
  match t with
  | BType.usb => env.usbGate
  | BType.ble => env.bleGate
  | BType.wifi => env.espGate

/-- The driver calls that tear a connection down. -/
def isTeardown (e : DrvEv) : Bool :=
  match e with
  | DrvEv.usbClose _ => true
  | DrvEv.usbDisc _ => true
  | DrvEv.bleDisc _ => true
  | _ => false

/-- The teardown calls disconnectFromBoard issues for one connection type. -/
def teardownEvents (t : BType) (i : JsId) : List DrvEv :=
  match t with
  | BType.usb => [DrvEv.usbClose i, DrvEv.usbDisc i]
  | BType.ble => [DrvEv.bleDisc i]
  | BType.wifi => []

/-- The setup calls connectToBoard issues for one board type. -/
def setupEvents (t : BType) (i : JsId) : List DrvEv :=
  match t with
  | BType.usb => [DrvEv.usbConnect i, DrvEv.usbOpen i, DrvEv.usbSetListener]
  | BType.ble => [DrvEv.bleConnect i, DrvEv.bleStartNotify i,
      DrvEv.bleAddListener i]
  | BType.wifi => []

/-- One record of the compiled_binaries list kept in AsyncStorage. -/
structure BinEntry where
  id : String
  fileName : String
  uri : String
deriving DecidableEq, Repr

/-- External effects of one downloadBinary call, in order. -/
inductive DlEv where
  | checkDir
  | makeDir
  | download (compilationId : String)
  | getStatus (compilationId : String)
deriving DecidableEq, Repr

/-- CompilationService.downloadBinary: ensures the binaries directory exists,
unconditionally downloads the artifact for the given compilation id, fetches
the compilation status for the board type, and appends a new record to the
stored compiled_binaries list. There is no cache lookup on any path. -/
def downloadBinary (dirExists : Bool) (binaries : List BinEntry)
    (compilationId fileName : String) : List BinEntry × List DlEv :=
  (binaries ++
      [{ id := compilationId, fileName := fileName,
         uri := "binaries/" ++ fileName }],
    [DlEv.checkDir] ++ (if dirExists then [] else [DlEv.makeDir]) ++
      [DlEv.download compilationId, DlEv.getStatus compilationId])

/-- External effects of one uploadBinary call, in order: control-line toggles
and pacing delays, per-chunk transport writes, progress callbacks, and the
opaque ESP OTA upload. -/
inductive UpEv where
  | setDTR (id : JsId) (v : Bool)
  | setRTS (id : JsId) (v : Bool)
  | delayMs (n : Nat)
  | usbWrite (id : JsId) (chunk : List Char)
  | bleWrite (id : JsId) (svc ch : String) (chunk : List Char)
  | progress (p : ℚ)
  | otaUpload (ip : String) (port : Nat)
deriving DecidableEq, Repr

/-- JS String.substr(start, len) on a character list. -/
def jsSubstr (s : List Char) (start len : Nat) : List Char :=
  (s.drop start).take len

/-- Math.ceil(len / cs) for naturals, the totalChunks computation. -/
def totalChunks (len cs : Nat) : Nat := (len + cs - 1) / cs

/-- The shared shape of both chunk loops in uploadBinary: for each chunk
index, write the substr chunk, report progress (i+1)/totalChunks, then pause
for the transport-specific delay. -/
def chunkLoop (w : List Char → UpEv) (pause cs : Nat) (b64 : List Char) :
    List UpEv :=
  (List.range (totalChunks b64.length cs)).flatMap fun i =>
    [w (jsSubstr b64 (i * cs) cs),
      UpEv.progress (((i : ℚ) + 1) / ((totalChunks b64.length cs : Nat) : ℚ)),
      UpEv.delayMs pause]

/-- JS defaulting details.port or 8266: absent and zero are both falsy. -/
def jsPortDefault (p : Option Nat) : Nat :=
  match p with
  | none => 8266
  | some v => if v == 0 then 8266 else v

/-- The USB branch of uploadBinary: DTR/RTS bootloader-entry sequence with
its 250ms and 50ms holds, then 128-char chunks of the Base64 string with a
10ms pause each, then the final DTR reset toggle with a 250ms hold. -/
def uploadBinaryUsb (id : JsId) (b64 : List Char) : List UpEv :=
  [UpEv.setDTR id false, UpEv.setRTS id true, UpEv.delayMs 250,
    UpEv.setDTR id true, UpEv.delayMs 50, UpEv.setRTS id false] ++
  chunkLoop (fun c => UpEv.usbWrite id c) 10 128 b64 ++
  [UpEv.setDTR id false, UpEv.delayMs 250, UpEv.setDTR id true]

/-- The BLE branch of uploadBinary: 20-char chunks of the Base64 string on
the FFE0/FFE1 UART characteristic with a 50ms pause each; no control lines. -/
def uploadBinaryBle (id : JsId) (b64 : List Char) : List UpEv :=
  chunkLoop (fun c => UpEv.bleWrite id "FFE0" "FFE1" c) 50 20 b64

/-- The WiFi branch of uploadBinary: one opaque EspOta.uploadBinary call to
the stored ip with the stored port defaulted to 8266. -/
def uploadBinaryWifi (ip : String) (port : Option Nat) : List UpEv :=
  [UpEv.otaUpload ip (jsPortDefault port)]

/-- The connectionType dispatch of uploadBinary over the three transports. -/
def uploadBinaryDispatch (ct : BType) (id : JsId) (ip : String)
    (port : Option Nat) (b64 : List Char) : List UpEv :=
  match ct with
  | BType.usb => uploadBinaryUsb id b64
  | BType.ble => uploadBinaryBle id b64
  | BType.wifi => uploadBinaryWifi ip port

/-- Control-line events (the DTR/RTS toggles). -/
def isCtrl (e : UpEv) : Bool :=
  match e with
  | UpEv.setDTR _ _ => true
  | UpEv.setRTS _ _ => true
  | _ => false

/-- The progress value carried by a progress event. -/
def progOf (e : UpEv) : Option ℚ :=
  match e with
  | UpEv.progress p => some p
  | _ => none

/-- The progress values reported by a trace, in order. -/
def progressVals (l : List UpEv) : List ℚ :=
  l.filterMap progOf

/-- USB chunk-write events. -/
def isUsbWrite (e : UpEv) : Bool :=
  match e with
  | UpEv.usbWrite _ _ => true
  | _ => false

/-- BLE chunk-write events. -/
def isBleWrite (e : UpEv) : Bool :=
  match e with
  | UpEv.bleWrite _ _ _ _ => true
  | _ => false

/-- The chunk payload of a BLE write event. -/
def bleChunkOf (e : UpEv) : Option (List Char) :=
  match e with
  | UpEv.bleWrite _ _ _ c => some c
  | _ => none

/-- The BLE chunks sent by a trace, in order. -/
def bleChunks (l : List UpEv) : List (List Char) :=
  l.filterMap bleChunkOf

/-- Length of the padded Base64 encoding of n raw bytes, the length of the
string FileSystem.readAsStringAsync returns with Base64 encoding. -/
def base64Len (n : Nat) : Nat := 4 * ((n + 2) / 3)

/-- The Base64 read of a 300-byte binary: a 400-character string (content is
irrelevant to chunk counts and progress). -/
def b64Of300 : List Char := List.replicate 400 'A'

/-- A subscribed serial-monitor handler that throws on every chunk. -/
def throwingHandler : Nat → Except Nat Unit := fun _ => Except.error 7

/-- A subscribed serial-monitor handler that returns normally. -/
def okHandler : Nat → Except Nat Unit := fun _ => Except.ok ()

/-- Two subscribed handlers where the first throws. -/
def fanoutHandlers : List (Nat → Except Nat Unit) := [throwingHandler, okHandler]

/-- Two subscribed handlers that both return normally. -/
def okHandlers2 : List (Nat → Except Nat Unit) := [okHandler, okHandler]

/-- Scan environment in which the USB driver enumeration rejects while a
stored ESP device is available. -/
def scanEnvUsbFail : ScanEnv :=
  { usbGate := true, bleGate := false, espGate := true
    usb := Except.error "USB enumeration failed", ble := Except.ok []
    esp := [⟨"192.168.1.50", some "Shed ESP", some 8266⟩] }

/-- Scan environment in which the BLE driver enumeration rejects. -/
def scanEnvBleFail : ScanEnv :=
  { usbGate := false, bleGate := true, espGate := true
    usb := Except.ok [], ble := Except.error "radio off", esp := [] }

/-- A BLE peripheral that passes the name filter. -/
def dupBleDev : BleDev := ⟨"AA:BB:CC", some "BLE-sensor"⟩

/-- Scan environment in which the BLE scan reports the same peripheral
twice, as BLE scans commonly do. -/
def scanEnvBleDup : ScanEnv :=
  { usbGate := false, bleGate := true, espGate := false
    usb := Except.ok [], ble := Except.ok [dupBleDev, dupBleDev], esp := [] }

/-- The board list produced by scanning scanEnvBleDup. -/
def scanDupBoards : List Board := [bleBoard dupBleDev, bleBoard dupBleDev]

/-- Connection environment with every module present and every driver
completing successfully. -/
def connEnvAll : ConnEnv :=
  { usbGate := true, bleGate := true, espGate := true
    usbOk := true, bleOk := true }

/-- A USB board descriptor. -/
def boardU : Board := ⟨JsId.num 1, "Arduino Uno", BType.usb⟩

/-- A BLE board descriptor. -/
def boardB : Board := ⟨JsId.str "AA:BB:CC", "Nano 33 BLE", BType.ble⟩

/-- A WiFi (ESP OTA) board descriptor. -/
def boardW : Board := ⟨JsId.str "192.168.1.50", "Shed ESP", BType.wifi⟩

/-- A persisted ESP registry holding one device. -/
def espReg0 : List EspDev := [⟨"192.168.1.50", some "Shed ESP", some 8266⟩]

/-- An ESP registration that reuses the stored ip with new fields. -/
def espDevNew : EspDev := ⟨"192.168.1.50", some "Shed ESP mk2", none⟩

/-- The stored binaries list after one downloadBinary call for c1. -/
def dlState1 : List BinEntry := (downloadBinary true [] "c1" "blink.bin").1

/-! ### Helper lemmas -/

theorem except_bind_error {α β : Type} (e : String) (f : α → Except String β) :
    (Except.error e : Except String α) >>= f = Except.error e := rfl

theorem except_bind_ok {α β : Type} (a : α) (f : α → Except String β) :
    (Except.ok a : Except String α) >>= f = f a := rfl

theorem fanOutCount_le {α ε : Type} (hs : List (α → Except ε Unit)) (d : α) :
    (fanOutCount hs d).1 ≤ hs.length := by
  induction hs with
  | nil => simp [fanOutCount]
  | cons g t ih =>
    cases hg : g d with
    | ok u =>
      simp only [fanOutCount, hg, List.length_cons]
      exact Nat.succ_le_succ ih
    | error e =>
      simp only [fanOutCount, hg, List.length_cons]
      exact Nat.succ_le_succ (Nat.zero_le _)

theorem fanOutCount_all_ok {α ε : Type} (hs : List (α → Except ε Unit)) (d : α)
    (h : ∀ g ∈ hs, ∃ u, g d = Except.ok u) :
    fanOutCount hs d = (hs.length, none) := by
  induction hs with
  | nil => rfl
  | cons g t ih =>
    obtain ⟨u, hu⟩ := h g (List.mem_cons_self g t)
    have ht := ih (fun x hx => h x (List.mem_cons_of_mem g hx))
    simp [fanOutCount, hu, ht]

theorem fanOutCount_error_split {α ε : Type} (hs : List (α → Except ε Unit))
    (d : α) (e : ε) :
    (fanOutCount hs d).2 = some e →
      ∃ pre g rest, hs = pre ++ g :: rest ∧
        (∀ x ∈ pre, ∃ u, x d = Except.ok u) ∧ g d = Except.error e ∧
        (fanOutCount hs d).1 = pre.length + 1 := by
  induction hs with
  | nil => intro h; simp [fanOutCount] at h
  | cons g t ih =>
    intro h
    cases hg : g d with
    | error e0 =>
      have he : e0 = e := by
        have := h
        simp only [fanOutCount, hg] at this
        exact Option.some.inj this
      subst he
      exact ⟨[], g, t, rfl, by simp, hg, by simp [fanOutCount, hg]⟩
    | ok u =>
      have h2 : (fanOutCount t d).2 = some e := by
        have := h
        simp only [fanOutCount, hg] at this
        exact this
      obtain ⟨pre, g1, rest, heq, hpre, hg1, hcnt⟩ := ih h2
      refine ⟨g :: pre, g1, rest, by simp [heq], ?_, hg1, ?_⟩
      · intro x hx
        rcases List.mem_cons.mp hx with rfl | hx
        · exact ⟨u, hg⟩
        · exact hpre x hx
      · simp [fanOutCount, hg, hcnt]

theorem mergeEspDevice_ip (old d : EspDev) : (mergeEspDevice old d).ip = d.ip := rfl

theorem addEspDevice_ip_mem (devs : List EspDev) (d : EspDev) :
    ∀ x ∈ (addEspDevice devs d).map EspDev.ip,
      x ∈ devs.map EspDev.ip ∨ x = d.ip := by
  induction devs with
  | nil => simp [addEspDevice]
  | cons e t ih =>
    by_cases hb : e.ip = d.ip
    · simp only [addEspDevice, beq_iff_eq, hb, if_pos, List.map_cons,
        mergeEspDevice_ip]
      intro x hx
      rcases List.mem_cons.mp hx with rfl | hx
      · exact Or.inr rfl
      · exact Or.inl (List.mem_cons_of_mem _ hx)
    · simp only [addEspDevice, beq_iff_eq, hb, if_neg, List.map_cons,
        not_false_iff]
      intro x hx
      rcases List.mem_cons.mp hx with rfl | hx
      · exact Or.inl (List.mem_cons_self _ _)
      · rcases ih x hx with h1 | h2
        · exact Or.inl (List.mem_cons_of_mem _ h1)
        · exact Or.inr h2

theorem addEspDevice_ips_of_mem (devs : List EspDev) (d : EspDev)
    (h : ∃ e ∈ devs, e.ip = d.ip) :
    (addEspDevice devs d).map EspDev.ip = devs.map EspDev.ip := by
  induction devs with
  | nil => simp at h
  | cons e t ih =>
    by_cases hb : e.ip = d.ip
    · simp [addEspDevice, beq_iff_eq, hb, mergeEspDevice_ip]
    · obtain ⟨x, hx, hxip⟩ := h
      rcases List.mem_cons.mp hx with rfl | hx
      · exact absurd hxip hb
      · simp [addEspDevice, beq_iff_eq, hb, ih ⟨x, hx, hxip⟩]

theorem addEspDevice_of_fresh (devs : List EspDev) (d : EspDev)
    (h : ∀ e ∈ devs, e.ip ≠ d.ip) :
    addEspDevice devs d = devs ++ [d] := by
  induction devs with
  | nil => rfl
  | cons e t ih =>
    have he : e.ip ≠ d.ip := h e (List.mem_cons_self e t)
    simp [addEspDevice, beq_iff_eq, he,
      ih (fun x hx => h x (List.mem_cons_of_mem e hx))]

theorem addEspDevice_nodup (devs : List EspDev) (d : EspDev)
    (h : (devs.map EspDev.ip).Nodup) :
    ((addEspDevice devs d).map EspDev.ip).Nodup := by
  induction devs with
  | nil => simp [addEspDevice]
  | cons e t ih =>
    rw [List.map_cons, List.nodup_cons] at h
    by_cases hb : e.ip = d.ip
    · simp only [addEspDevice, beq_iff_eq, hb, if_pos, List.map_cons,
        mergeEspDevice_ip, List.nodup_cons]
      exact ⟨hb ▸ h.1, h.2⟩
    · simp only [addEspDevice, beq_iff_eq, hb, if_neg, List.map_cons,
        not_false_iff, List.nodup_cons]
      refine ⟨?_, ih h.2⟩
      intro hmem
      rcases addEspDevice_ip_mem t d e.ip hmem with h1 | h2
      · exact h.1 h1
      · exact hb h2

theorem removeEspDevice_not_mem (devs : List EspDev) (ip : String) :
    ∀ e ∈ removeEspDevice devs ip, e.ip ≠ ip := by
  intro e he
  have := List.of_mem_filter he
  simpa [bne_iff_ne] using this

theorem removeEspDevice_nodup (devs : List EspDev) (ip : String)
    (h : (devs.map EspDev.ip).Nodup) :
    ((removeEspDevice devs ip).map EspDev.ip).Nodup := by
  exact h.sublist ((List.filter_sublist devs).map EspDev.ip)

theorem progressVals_flatMap (l : List Nat) (f : Nat → List UpEv) (g : Nat → ℚ)
    (h : ∀ i, progressVals (f i) = [g i]) :
    progressVals (l.flatMap f) = l.map g := by
  induction l with
  | nil => rfl
  | cons a t ih =>
    simp only [List.flatMap_cons, List.map_cons, progressVals,
      List.filterMap_append] at *
    rw [h a, ih]
    rfl

theorem countP_flatMap_one (l : List Nat) (f : Nat → List UpEv) (q : UpEv → Bool)
    (h : ∀ i, (f i).countP q = 1) :
    (l.flatMap f).countP q = l.length := by
  induction l with
  | nil => rfl
  | cons a t ih =>
    rw [List.flatMap_cons, List.countP_append, h a, ih, List.length_cons,
      Nat.add_comm]

theorem bleChunks_flatMap (l : List Nat) (f : Nat → List UpEv)
    (g : Nat → List Char) (h : ∀ i, bleChunks (f i) = [g i]) :
    bleChunks (l.flatMap f) = l.map g := by
  induction l with
  | nil => rfl
  | cons a t ih =>
    simp only [List.flatMap_cons, List.map_cons, bleChunks,
      List.filterMap_append] at *
    rw [h a, ih]
    rfl

theorem chunkLoop_progress (w : List Char → UpEv) (hw : ∀ c, progOf (w c) = none)
    (pause cs : Nat) (b64 : List Char) :
    progressVals (chunkLoop w pause cs b64) =
      (List.range (totalChunks b64.length cs)).map
        (fun (i : ℕ) => ((i : ℚ) + 1) / ((totalChunks b64.length cs : Nat) : ℚ)) := by
  apply progressVals_flatMap
  intro i
  have h1 := hw (jsSubstr b64 (i * cs) cs)
  simp only [progressVals, List.filterMap_cons, h1]
  rfl

theorem chunkLoop_countP (w : List Char → UpEv) (q : UpEv → Bool)
    (hq : ∀ c, q (w c) = true) (hq2 : ∀ p : ℚ, q (UpEv.progress p) = false)
    (hq3 : ∀ m : Nat, q (UpEv.delayMs m) = false) (pause cs : Nat)
    (b64 : List Char) :
    (chunkLoop w pause cs b64).countP q = totalChunks b64.length cs := by
  rw [chunkLoop]
  rw [countP_flatMap_one _ _ _ (fun i => by simp [List.countP_cons, hq, hq2, hq3])]
  exact List.length_range _

theorem chunkLoop_ble_chunks (id : JsId) (pause cs : Nat) (b64 : List Char) :
    bleChunks (chunkLoop (fun c => UpEv.bleWrite id "FFE0" "FFE1" c) pause cs b64) =
      (List.range (totalChunks b64.length cs)).map
        (fun i => jsSubstr b64 (i * cs) cs) := by
  apply bleChunks_flatMap
  intro i
  simp [bleChunks, bleChunkOf]

theorem chunkLoop_no_ctrl (w : List Char → UpEv) (hw : ∀ c, isCtrl (w c) = false)
    (pause cs : Nat) (b64 : List Char) :
    ∀ e ∈ chunkLoop w pause cs b64, isCtrl e = false := by
  intro e he
  rcases List.mem_flatMap.mp he with ⟨i, _, hee⟩
  rcases List.mem_cons.mp hee with rfl | hee
  · exact hw _
  · rcases List.mem_cons.mp hee with rfl | hee
    · rfl
    · rcases List.mem_cons.mp hee with rfl | hee
      · rfl
      · simp at hee

theorem progressVals_uploadUsb (id : JsId) (b64 : List Char) :
    progressVals (uploadBinaryUsb id b64) =
      progressVals (chunkLoop (fun c => UpEv.usbWrite id c) 10 128 b64) := by
  simp [uploadBinaryUsb, progressVals, List.filterMap_append, progOf]

theorem countP_usbWrite_uploadUsb (id : JsId) (b64 : List Char) :
    (uploadBinaryUsb id b64).countP isUsbWrite =
      (chunkLoop (fun c => UpEv.usbWrite id c) 10 128 b64).countP isUsbWrite := by
  simp [uploadBinaryUsb, List.countP_append, isUsbWrite]

/-! ### Claim theorems -/

/-- C1, counterexample: with two subscribed serial-monitor handlers of which
the first throws, the forEach fan-out invokes only the first handler on the
inbound chunk and propagates the exception, so the second currently
subscribed handler never receives the chunk — the claimed isolation of
handler exceptions does not hold. -/
theorem fanout_exception_blocks_remaining :
    fanOutCount fanoutHandlers 0 = (1, some 7) ∧ fanoutHandlers.length = 2 ∧
      (1 : Nat) ≠ 2 :=
  ⟨rfl, rfl, by decide⟩

/-- C1, amended: each inbound chunk is delivered in subscription order to an
initial segment of the subscribed handlers; when no handler throws, every
handler receives the chunk and the loop completes; when a handler throws,
exactly the handlers up to and including the first throwing one are invoked
and the exception propagates, so later handlers miss the chunk. -/
theorem fanout_delivers_in_order_until_throw {α ε : Type}
    (hs : List (α → Except ε Unit)) (d : α) :
    (fanOutCount hs d).1 ≤ hs.length ∧
    ((∀ g ∈ hs, ∃ u, g d = Except.ok u) → fanOutCount hs d = (hs.length, none)) ∧
    (∀ e, (fanOutCount hs d).2 = some e →
      ∃ pre g rest, hs = pre ++ g :: rest ∧
        (∀ x ∈ pre, ∃ u, x d = Except.ok u) ∧ g d = Except.error e ∧
        (fanOutCount hs d).1 = pre.length + 1) :=
  ⟨fanOutCount_le hs d, fanOutCount_all_ok hs d,
    fun e he => fanOutCount_error_split hs d e he⟩

/-- Witness for the amended C1 at two concrete handlers that both return
normally: both are invoked and no error propagates. -/
theorem fanout_delivers_in_order_until_throw_witness :
    fanOutCount okHandlers2 0 = (okHandlers2.length, none) := by
  apply (fanout_delivers_in_order_until_throw okHandlers2 0).2.1
  intro g hg
  simp only [okHandlers2, List.mem_cons, List.not_mem_nil, or_false] at hg
  rcases hg with rfl | rfl
  · exact ⟨(), rfl⟩
  · exact ⟨(), rfl⟩

/-- C2, counterexample: when the USB driver enumeration rejects while a
stored ESP device is available, getAvailableBoards rejects with the driver
error instead of returning the remaining boards — the scan is aborted and
the error is raised to the caller. -/
theorem scan_usb_error_aborts_scan :
    getAvailableBoards scanEnvUsbFail = Except.error "USB enumeration failed" ∧
    scanSucceeds (getAvailableBoards scanEnvUsbFail) = false :=
  ⟨rfl, rfl⟩

/-- C2, amended: an error raised by any transport driver enumeration aborts
the whole getAvailableBoards scan and propagates to the caller (the catch
only logs and rethrows): a USB enumeration error propagates, and a BLE
enumeration error propagates whenever the USB stage did not already throw. -/
theorem scan_driver_error_propagates (env : ScanEnv) (e : String) :
    (env.usbGate = true → env.usb = Except.error e →
      getAvailableBoards env = Except.error e) ∧
    ((env.usbGate = false ∨ ∃ l, env.usb = Except.ok l) → env.bleGate = true →
      env.ble = Except.error e → getAvailableBoards env = Except.error e) := by
  constructor
  · intro hg hu
    simp [getAvailableBoards, hg, hu, except_bind_error]
  · rintro (hg | ⟨l, hu⟩) hbg hbe
    · simp [getAvailableBoards, hg, hbg, hbe, except_bind_error, except_bind_ok]
    · by_cases hg : env.usbGate <;>
        simp [getAvailableBoards, hg, hu, hbg, hbe, except_bind_error,
          except_bind_ok]

/-- Witness for the amended C2 at the two concrete failing environments. -/
theorem scan_driver_error_propagates_witness :
    getAvailableBoards scanEnvUsbFail = Except.error "USB enumeration failed" ∧
    getAvailableBoards scanEnvBleFail = Except.error "radio off" :=
  ⟨(scan_driver_error_propagates scanEnvUsbFail "USB enumeration failed").1
      rfl rfl,
    (scan_driver_error_propagates scanEnvBleFail "radio off").2
      (Or.inl rfl) rfl rfl⟩

/-- C4, counterexample: when the BLE scan reports the same peripheral twice
(as BLE advertising scans commonly do), getAvailableBoards returns two board
descriptors with the same id — the scan result is not duplicate-free. -/
theorem scan_emits_duplicate_ids :
    getAvailableBoards scanEnvBleDup = Except.ok scanDupBoards ∧
    ¬ (scanDupBoards.map Board.id).Nodup :=
  ⟨rfl, by decide⟩

/-- C4, amended: getAvailableBoards performs no deduplication: the ids of a
successful scan result are exactly the concatenation of the per-driver ids
(USB deviceIds, name-filtered BLE ids, stored ESP ips, each present only when
its module gate is on), so the result is duplicate-free only when that
concatenation is. -/
theorem scan_ids_concat_no_dedup (env : ScanEnv) (usbL : List UsbDev)
    (bleL : List BleDev) (bs : List Board) (hu : env.usb = Except.ok usbL)
    (hb : env.ble = Except.ok bleL)
    (hscan : getAvailableBoards env = Except.ok bs) :
    bs.map Board.id =
      (if env.usbGate then usbL.map (fun d => JsId.num d.deviceId) else []) ++
      (if env.bleGate then
        (bleL.filter bleNameAllowed).map (fun d => JsId.str d.id) else []) ++
      (if env.espGate then env.esp.map (fun d => JsId.str d.ip) else []) := by
  by_cases hug : env.usbGate <;> by_cases hbg : env.bleGate <;>
    by_cases heg : env.espGate <;>
    · simp only [getAvailableBoards, hug, hbg, heg, hu, hb, if_pos, if_neg,
        except_bind_ok, if_true, if_false, Bool.false_eq_true,
        not_false_iff] at hscan
      rcases hscan with rfl | h
      all_goals
        simp only [List.map_append, List.map_map, hug, hbg, heg, if_true,
          if_false, Bool.false_eq_true]
      all_goals rfl

/-- Witness for the amended C4 at the duplicate-reporting BLE environment. -/
theorem scan_ids_concat_no_dedup_witness :
    scanDupBoards.map Board.id = [JsId.str "AA:BB:CC", JsId.str "AA:BB:CC"] := by
  have h := scan_ids_concat_no_dedup scanEnvBleDup [] [dupBleDev, dupBleDev]
    scanDupBoards rfl rfl rfl
  rw [h]
  decide

/-- C6, counterexample: after downloadBinary has already completed for
compilation id c1, a repeated downloadBinary call for c1 issues a new
download of the artifact and appends a second record — it is not served from
a local cache. -/
theorem download_repeat_downloads_again :
    DlEv.download "c1" ∈ (downloadBinary true dlState1 "c1" "blink.bin").2 ∧
    (downloadBinary true dlState1 "c1" "blink.bin").1.length = 2 :=
  ⟨by decide, rfl⟩

/-- C6, amended: downloadBinary performs no cache lookup: every call,
including a repeated call for an already-downloaded compilation id, issues
exactly one new download for that id and appends one new record keyed by the
id to the stored list. -/
theorem download_always_fetches (dir : Bool) (bs : List BinEntry)
    (cid fn : String) :
    (downloadBinary dir bs cid fn).1 =
      bs ++ [{ id := cid, fileName := fn, uri := "binaries/" ++ fn }] ∧
    (downloadBinary dir bs cid fn).2.countP
      (fun e => e == DlEv.download cid) = 1 := by
  refine ⟨rfl, ?_⟩
  cases dir <;>
    simp [downloadBinary, List.countP_append, List.countP_cons]

/-- C9: the persisted ESP registry is keyed by ip: adding a device whose ip
is already stored merges it into the existing entry in place (same ips, same
length), adding a fresh ip appends one entry, removing an ip removes every
entry with that ip, and both operations preserve freedom from duplicate ips. -/
theorem esp_registry_keyed_by_ip (devs : List EspDev) (d : EspDev) (ip : String)
    (h : (devs.map EspDev.ip).Nodup) :
    ((∃ e ∈ devs, e.ip = d.ip) →
      (addEspDevice devs d).map EspDev.ip = devs.map EspDev.ip) ∧
    ((∀ e ∈ devs, e.ip ≠ d.ip) → addEspDevice devs d = devs ++ [d]) ∧
    (∀ e ∈ removeEspDevice devs ip, e.ip ≠ ip) ∧
    ((addEspDevice devs d).map EspDev.ip).Nodup ∧
    ((removeEspDevice devs ip).map EspDev.ip).Nodup :=
  ⟨addEspDevice_ips_of_mem devs d, addEspDevice_of_fresh devs d,
    removeEspDevice_not_mem devs ip, addEspDevice_nodup devs d h,
    removeEspDevice_nodup devs ip h⟩

/-- Witness for C9 at a concrete one-entry registry: re-adding the stored ip
merges in place, and removal leaves no entry with the removed ip. -/
theorem esp_registry_keyed_by_ip_witness :
    (addEspDevice espReg0 espDevNew).map EspDev.ip = espReg0.map EspDev.ip ∧
    (∀ e ∈ removeEspDevice espReg0 "10.0.0.9", e.ip ≠ "10.0.0.9") ∧
    ((addEspDevice espReg0 espDevNew).map EspDev.ip).Nodup := by
  have h := esp_registry_keyed_by_ip espReg0 espDevNew "10.0.0.9" (by decide)
  exact ⟨h.1 ⟨⟨"192.168.1.50", some "Shed ESP", some 8266⟩, by decide, rfl⟩,
    h.2.2.1, h.2.2.2.1⟩

/-- C3, counterexample: the binary is read as a Base64 string, so a 300-byte
payload becomes 400 characters; over the 20-character BLE chunking the code
sends 20 chunks, not 15, and the reported progress sequence is not the
claimed 1/15, 2/15, ..., 1.0. -/
theorem ble_300_payload_sends_20_chunks :
    (uploadBinaryBle (JsId.str "dev") b64Of300).countP isBleWrite = 20 ∧
    (uploadBinaryBle (JsId.str "dev") b64Of300).countP isBleWrite ≠ 15 ∧
    progressVals (uploadBinaryBle (JsId.str "dev") b64Of300) ≠
      (List.range 15).map (fun (i : ℕ) => ((i : ℚ) + 1) / 15) := by
  have hlen : b64Of300.length = 400 := by
    simp only [b64Of300, List.length_replicate]
  have hT : totalChunks b64Of300.length 20 = 20 := by rw [hlen]; rfl
  have hc : (uploadBinaryBle (JsId.str "dev") b64Of300).countP isBleWrite = 20 := by
    rw [uploadBinaryBle, chunkLoop_countP
      (fun c => UpEv.bleWrite (JsId.str "dev") "FFE0" "FFE1" c) isBleWrite
      (fun c => rfl) (fun p => rfl) (fun m => rfl), hT]
  have hp : progressVals (uploadBinaryBle (JsId.str "dev") b64Of300) =
      (List.range 20).map
        (fun (i : ℕ) => ((i : ℚ) + 1) / ((20 : ℕ) : ℚ)) := by
    rw [uploadBinaryBle, chunkLoop_progress
      (fun c => UpEv.bleWrite (JsId.str "dev") "FFE0" "FFE1" c)
      (fun c => rfl), hT]
  refine ⟨hc, by rw [hc]; decide, ?_⟩
  rw [hp]
  intro heq
  have hlen2 := congrArg List.length heq
  simp only [List.length_map, List.length_range] at hlen2
  exact absurd hlen2 (by decide)

/-- C3, amended: the chunk loop runs over the Base64 string and reports
progress as (chunks sent so far) / (total chunks): a 300-byte payload reads
as a 400-character Base64 string, so the BLE upload sends exactly 20 chunks,
in string order, with progress 1/20, 2/20, ..., 1.0 reported in that order. -/
theorem ble_upload_progress_over_base64_chunks (id : JsId) (b64 : List Char)
    (h : b64.length = 400) :
    (uploadBinaryBle id b64).countP isBleWrite = 20 ∧
    progressVals (uploadBinaryBle id b64) =
      (List.range 20).map (fun (i : ℕ) => ((i : ℚ) + 1) / 20) ∧
    bleChunks (uploadBinaryBle id b64) =
      (List.range 20).map (fun i => jsSubstr b64 (i * 20) 20) := by
  have hT : totalChunks b64.length 20 = 20 := by rw [h]; rfl
  refine ⟨?_, ?_, ?_⟩
  · rw [uploadBinaryBle, chunkLoop_countP
      (fun c => UpEv.bleWrite id "FFE0" "FFE1" c) isBleWrite
      (fun c => rfl) (fun p => rfl) (fun m => rfl), hT]
  · rw [uploadBinaryBle, chunkLoop_progress
      (fun c => UpEv.bleWrite id "FFE0" "FFE1" c) (fun c => rfl), hT]
    norm_num
  · rw [uploadBinaryBle, chunkLoop_ble_chunks, hT]

/-- Witness for the amended C3 at the concrete 400-character Base64 read of
a 300-byte payload. -/
theorem ble_upload_progress_over_base64_chunks_witness :
    (uploadBinaryBle (JsId.str "w") b64Of300).countP isBleWrite = 20 ∧
    progressVals (uploadBinaryBle (JsId.str "w") b64Of300) =
      (List.range 20).map (fun (i : ℕ) => ((i : ℚ) + 1) / 20) ∧
    bleChunks (uploadBinaryBle (JsId.str "w") b64Of300) =
      (List.range 20).map (fun i => jsSubstr b64Of300 (i * 20) 20) :=
  ble_upload_progress_over_base64_chunks (JsId.str "w") b64Of300
    (by simp only [b64Of300, List.length_replicate])

/-- C5: connecting to A and then to B always tears A down first: both calls
succeed, afterwards exactly the connection to B is active (the state holds at
most one connection by construction), and the second call's driver trace is
exactly A's teardown calls followed by B's setup calls, so A's driver
receives its disconnect/close calls before any of B's connect calls. -/
theorem connect_switch_single_connection (env : ConnEnv) (A B : Board)
    (hA : boardSupported env A.btype = true)
    (hB : boardSupported env B.btype = true)
    (hu : env.usbOk = true) (hb : env.bleOk = true) :
    (connectToBoard env ⟨none, none⟩ A).2.2 = none ∧
    (connectToBoard env ⟨none, none⟩ A).1.connectedDevice = some A ∧
    (connectToBoard env (connectToBoard env ⟨none, none⟩ A).1 B).2.2 = none ∧
    (connectToBoard env
      (connectToBoard env ⟨none, none⟩ A).1 B).1.connectedDevice = some B ∧
    (connectToBoard env
      (connectToBoard env ⟨none, none⟩ A).1 B).1.connectionType = some B.btype ∧
    (connectToBoard env (connectToBoard env ⟨none, none⟩ A).1 B).2.1 =
      teardownEvents A.btype A.id ++ setupEvents B.btype B.id ∧
    (∀ e ∈ teardownEvents A.btype A.id, isTeardown e = true) ∧
    (∀ e ∈ setupEvents B.btype B.id, isTeardown e = false) := by
  obtain ⟨ia, na, ta⟩ := A
  obtain ⟨ib, nb, tb⟩ := B
  cases ta <;> cases tb <;>
    (simp only [boardSupported] at hA hB) <;>
    simp [connectToBoard, disconnectFromBoard, hA, hB, hu, hb,
      teardownEvents, setupEvents, isTeardown]

/-- Witness for C5: switching from a USB board to a BLE board in the
all-modules environment leaves the BLE board connected, with the USB
teardown calls traced before the BLE setup calls. -/
theorem connect_switch_single_connection_witness :
    (connectToBoard connEnvAll
      (connectToBoard connEnvAll ⟨none, none⟩ boardU).1 boardB).1.connectedDevice =
        some boardB ∧
    (connectToBoard connEnvAll
      (connectToBoard connEnvAll ⟨none, none⟩ boardU).1 boardB).2.1 =
      teardownEvents boardU.btype boardU.id ++
        setupEvents boardB.btype boardB.id := by
  have h := connect_switch_single_connection connEnvAll boardU boardB
    rfl rfl rfl rfl
  exact ⟨h.2.2.2.1, h.2.2.2.2.2.1⟩

/-- C7: the USB upload trace is exactly the bootloader-entry sequence
(DTR deasserted, RTS asserted, 250ms hold, DTR inverted, 50ms hold, RTS
released), then a control-line-free transfer segment, then the final reset
toggle (DTR deasserted, 250ms hold, DTR reasserted); BLE and WiFi uploads
issue no control-line operations at all. -/
theorem usb_bootloader_and_reset_sequence (id : JsId) (b64 : List Char)
    (ip : String) (port : Option Nat) :
    (∃ L, uploadBinaryUsb id b64 =
        [UpEv.setDTR id false, UpEv.setRTS id true, UpEv.delayMs 250,
          UpEv.setDTR id true, UpEv.delayMs 50, UpEv.setRTS id false] ++ L ++
        [UpEv.setDTR id false, UpEv.delayMs 250, UpEv.setDTR id true] ∧
      ∀ e ∈ L, isCtrl e = false) ∧
    (∀ e ∈ uploadBinaryBle id b64, isCtrl e = false) ∧
    (∀ e ∈ uploadBinaryWifi ip port, isCtrl e = false) := by
  refine ⟨⟨chunkLoop (fun c => UpEv.usbWrite id c) 10 128 b64, rfl,
    chunkLoop_no_ctrl (fun c => UpEv.usbWrite id c) (fun c => rfl) 10 128 b64⟩,
    ?_, ?_⟩
  · exact chunkLoop_no_ctrl (fun c => UpEv.bleWrite id "FFE0" "FFE1" c)
      (fun c => rfl) 50 20 b64
  · intro e he
    rcases List.mem_cons.mp he with rfl | he
    · rfl
    · simp at he

/-- Witness for C7 at a concrete USB upload of the 400-character Base64
payload. -/
theorem usb_bootloader_and_reset_sequence_witness :
    ∃ L, uploadBinaryUsb (JsId.num 2) b64Of300 =
        [UpEv.setDTR (JsId.num 2) false, UpEv.setRTS (JsId.num 2) true,
          UpEv.delayMs 250, UpEv.setDTR (JsId.num 2) true, UpEv.delayMs 50,
          UpEv.setRTS (JsId.num 2) false] ++ L ++
        [UpEv.setDTR (JsId.num 2) false, UpEv.delayMs 250,
          UpEv.setDTR (JsId.num 2) true] ∧
      ∀ e ∈ L, isCtrl e = false :=
  (usb_bootloader_and_reset_sequence (JsId.num 2) b64Of300 "host" none).1

/-- C8: uploadBinary chunks the Base64 read of the binary, so when the
Base64 string of an n-byte file has its padded length 4*ceil(n/3), the USB
upload sends ceil(base64Length/128) chunks and the BLE upload
ceil(base64Length/20) chunks, and each transport reports progress as
(chunks sent so far) / (total chunks) over the Base64 length, not over the
raw byte count. -/
theorem upload_chunks_over_base64 (id : JsId) (b64 : List Char) (n : Nat)
    (h : b64.length = base64Len n) :
    (uploadBinaryUsb id b64).countP isUsbWrite = totalChunks (base64Len n) 128 ∧
    (uploadBinaryBle id b64).countP isBleWrite = totalChunks (base64Len n) 20 ∧
    progressVals (uploadBinaryUsb id b64) =
      (List.range (totalChunks (base64Len n) 128)).map
        (fun (i : ℕ) => ((i : ℚ) + 1) /
          ((totalChunks (base64Len n) 128 : Nat) : ℚ)) ∧
    progressVals (uploadBinaryBle id b64) =
      (List.range (totalChunks (base64Len n) 20)).map
        (fun (i : ℕ) => ((i : ℚ) + 1) /
          ((totalChunks (base64Len n) 20 : Nat) : ℚ)) := by
  refine ⟨?_, ?_, ?_, ?_⟩
  · rw [← h, countP_usbWrite_uploadUsb]
    exact chunkLoop_countP (fun c => UpEv.usbWrite id c) isUsbWrite
      (fun c => rfl) (fun p => rfl) (fun m => rfl) 10 128 b64
  · rw [← h, uploadBinaryBle]
    exact chunkLoop_countP (fun c => UpEv.bleWrite id "FFE0" "FFE1" c)
      isBleWrite (fun c => rfl) (fun p => rfl) (fun m => rfl) 50 20 b64
  · rw [← h, progressVals_uploadUsb]
    exact chunkLoop_progress (fun c => UpEv.usbWrite id c) (fun c => rfl)
      10 128 b64
  · rw [← h, uploadBinaryBle]
    exact chunkLoop_progress (fun c => UpEv.bleWrite id "FFE0" "FFE1" c)
      (fun c => rfl) 50 20 b64

/-- Witness for C8 at a 300-byte payload, whose Base64 read has 400
characters: 4 USB chunks of 128 and 20 BLE chunks of 20. -/
theorem upload_chunks_over_base64_witness :
    (uploadBinaryUsb (JsId.num 0) b64Of300).countP isUsbWrite =
      totalChunks (base64Len 300) 128 ∧
    (uploadBinaryBle (JsId.num 0) b64Of300).countP isBleWrite =
      totalChunks (base64Len 300) 20 ∧
    progressVals (uploadBinaryUsb (JsId.num 0) b64Of300) =
      (List.range (totalChunks (base64Len 300) 128)).map
        (fun (i : ℕ) => ((i : ℚ) + 1) /
          ((totalChunks (base64Len 300) 128 : Nat) : ℚ)) ∧
    progressVals (uploadBinaryBle (JsId.num 0) b64Of300) =
      (List.range (totalChunks (base64Len 300) 20)).map
        (fun (i : ℕ) => ((i : ℚ) + 1) /
          ((totalChunks (base64Len 300) 20 : Nat) : ℚ)) :=
  upload_chunks_over_base64 (JsId.num 0) b64Of300 300
    (by simp only [b64Of300, List.length_replicate]; rfl)

/-- C10: connecting to a wifi board only records the device and the wifi
connection type: it issues no driver calls at all (empty trace) and succeeds
in every environment with the OTA module present, regardless of any driver
health flag — so it succeeds even when the target host is unreachable — and
the wifi upload path is the single opaque OTA call where the actual network
contact happens. -/
theorem wifi_connect_is_pure_bookkeeping (env : ConnEnv) (b : Board)
    (ht : b.btype = BType.wifi) (hg : env.espGate = true) :
    connectToBoard env ⟨none, none⟩ b =
      (⟨some b, some BType.wifi⟩, [], none) ∧
    (∀ (ip : String) (port : Option Nat) (b64 : List Char),
      uploadBinaryDispatch BType.wifi b.id ip port b64 =
        [UpEv.otaUpload ip (jsPortDefault port)]) := by
  refine ⟨?_, fun ip port b64 => rfl⟩
  obtain ⟨i, n, t⟩ := b
  have ht2 : t = BType.wifi := ht
  subst ht2
  simp [connectToBoard, hg]

/-- Witness for C10 at a concrete wifi board in the all-modules
environment. -/
theorem wifi_connect_is_pure_bookkeeping_witness :
    connectToBoard connEnvAll ⟨none, none⟩ boardW =
      (⟨some boardW, some BType.wifi⟩, [], none) :=
  (wifi_connect_is_pure_bookkeeping connEnvAll boardW rfl rfl).1

end Simpiler
